import Mathlib

/-!
Shallow embedding of the scene-cut detection core of
`src/cut_detector.py`: the segment assembler inside `detect_cuts`,
the `_progress` handler, the resource-release `finally` block, and
`format_seconds`.  The external `scenedetect` library (frame source,
metric computation, boundary strategies) is modelled as a collaborator
supplying a scene list or an error, plus the stream of arguments it
passes to the progress callback.
Python floats are modelled as rationals; Python ints as `Int`/`Nat`.
-/

namespace CutDetector

/-- A Python exception carrying a message; the typed detection error
surfaced by `detect_cuts` (spec: `DetectionFailed{message}`). -/
structure DetectionFailed where
  message : String
deriving Repr, DecidableEq

/-- One entry of the `segments` list built in `detect_cuts`
(src/cut_detector.py lines 129-139). -/
structure Segment where
  index : ℕ
  start_frame : ℕ
  end_frame : ℕ
  duration_frames : ℤ
  start_time : ℚ
  end_time : ℚ
  duration_seconds : ℚ
deriving Repr, DecidableEq

/-- The dictionary returned by `detect_cuts`
(src/cut_detector.py lines 143-148). -/
structure AnalysisResult where
  segments : List Segment
  total_frames : ℕ
  fps : ℚ
  duration_seconds : ℚ
deriving Repr, DecidableEq

/-- The segment record appended for one scene `(s, e)` that survived the
minimum-length test: `index` is `len(segments) + 1` at append time,
time fields are `frame / fps if fps else 0.0`, and
`duration_seconds = max(end_seconds - start_seconds, 0.0)`. -/
def segRecord (fps : ℚ) (idx : ℕ) (s e : ℕ) : Segment :=
  let start_seconds : ℚ := if fps = 0 then 0 else (s : ℚ) / fps
  let end_seconds : ℚ := if fps = 0 then 0 else (e : ℚ) / fps
  { index := idx
    start_frame := s
    end_frame := e
    duration_frames := (e : ℤ) - (s : ℤ)
    start_time := start_seconds
    end_time := end_seconds
    duration_seconds := max (end_seconds - start_seconds) 0 }

/-- The `for start_timecode, end_timecode in scenes:` loop of
`detect_cuts` (src/cut_detector.py lines 121-139): each scene whose
`duration_frames < min_len_frames` is skipped (`continue`), every other
scene is appended to the accumulator with a fresh 1-based index. -/
def buildSegments (fps : ℚ) (minLen : ℤ) :
    List (ℕ × ℕ) → List Segment → List Segment
  | [], acc => acc
  | (s, e) :: rest, acc =>
    if (e : ℤ) - (s : ℤ) < minLen then
      buildSegments fps minLen rest acc
    else
      buildSegments fps minLen rest (acc ++ [segRecord fps (acc.length + 1) s e])

/-- The pure tail of `detect_cuts` after `manager.get_scene_list()`
returns `scenes` (src/cut_detector.py lines 119-148). -/
def assembleResult (total_frames : ℕ) (fps : ℚ) (scenes : List (ℕ × ℕ))
    (minLen : ℤ) : AnalysisResult :=
  { segments := buildSegments fps minLen scenes []
    total_frames := total_frames
    fps := fps
    duration_seconds := if fps = 0 then 0 else (total_frames : ℚ) / fps }

/-- The argument the external library passes to `_progress`
(src/cut_detector.py lines 75-94), classified by how the handler can
extract a frame index from it:
no positional or `frame_time` keyword argument at all; an argument that
is `None`; an object whose `get_frames()` returns an integer; an object
without `get_frames` that `int(...)` converts; or an object without
`get_frames` on which `int(...)` raises `TypeError`/`ValueError`. -/
inductive FrameTimeArg where
  | noArg : FrameTimeArg
  | noneArg : FrameTimeArg
  | withGetFrames (n : ℤ) : FrameTimeArg
  | intLike (n : ℤ) : FrameTimeArg
  | unconvertible : FrameTimeArg
deriving Repr, DecidableEq

/-- The fraction `_progress` computes for one callback argument, `none`
when the handler returns before reaching the sink call
(src/cut_detector.py lines 75-96): early return when `total_frames` is
falsy, when no frame-time argument is present or it is `None`, or when
the argument is unconvertible; otherwise
`min(max(frame_idx, 0) / total_frames, 0.999)`. -/
def progressFraction (total_frames : ℕ) (arg : FrameTimeArg) : Option ℚ :=
  if total_frames = 0 then none
  else
    match arg with
    | .noArg => none
    | .noneArg => none
    | .withGetFrames n => some (min ((max n 0 : ℤ) / (total_frames : ℚ)) (999 / 1000))
    | .intLike n => some (min ((max n 0 : ℤ) / (total_frames : ℚ)) (999 / 1000))
    | .unconvertible => none

/-- An observable action of one detection run. -/
inductive Event where
  | sinkCalled (fraction : ℚ) : Event
  | releaseCalled : Event
  | closeCalled : Event
deriving Repr, DecidableEq

/-- `with suppress(Exception): ...` — the wrapped action's exception, if
any, is discarded (src/cut_detector.py lines 97, 112, 116). -/
def suppressExc (action : Except DetectionFailed Unit) :
    Except DetectionFailed Unit :=
  match action with
  | _ => Except.ok ()

/-- One invocation of `_progress` (src/cut_detector.py lines 75-98):
the outcome the handler itself produces (an exception would propagate to
the library) together with the sink invocations it performs.  The sink
call is wrapped in `suppress(Exception)`. -/
def progressCall (total_frames : ℕ) (sink : ℚ → Except DetectionFailed Unit)
    (arg : FrameTimeArg) : Except DetectionFailed Unit × List Event :=
  match progressFraction total_frames arg with
  | none => (Except.ok (), [])
  | some f => (suppressExc (sink f), [Event.sinkCalled f])

/-- All sink invocations performed over the stream of callback arguments
the library delivers during `manager.detect_scenes`. -/
def progressEvents (total_frames : ℕ) (sink : ℚ → Except DetectionFailed Unit) :
    List FrameTimeArg → List Event
  | [] => []
  | a :: rest =>
    (progressCall total_frames sink a).2 ++ progressEvents total_frames sink rest

/-- The opened video source as `detect_cuts` observes it
(src/cut_detector.py lines 63-65 and 110-117): total frame count
(`0` if unknown), frame rate (`0.0` if unknown), and whether `release` /
`close` attributes exist and what each does when invoked. -/
structure VideoSource where
  total_frames : ℕ
  fps : ℚ
  release : Option (Except DetectionFailed Unit)
  close : Option (Except DetectionFailed Unit)
deriving Repr

/-- What the external `manager.detect_scenes` run does: the arguments it
feeds to the progress callback, and either a mid-stream error or the
final scene list (frame pairs from `get_scene_list`). -/
structure DetectRun where
  callbackArgs : List FrameTimeArg
  outcome : Except DetectionFailed (List (ℕ × ℕ))
deriving Repr

/-- The release/close events of the `finally` block
(src/cut_detector.py lines 109-117): each attribute that exists and is
callable is invoked. -/
def finallyEvents (v : VideoSource) : List Event :=
  (if v.release.isSome then [Event.releaseCalled] else []) ++
    (if v.close.isSome then [Event.closeCalled] else [])

/-- The outcome of the `finally` block body: each call is wrapped in
`with suppress(Exception)`, so an exception raised by `release()` or
`close()` is discarded (src/cut_detector.py lines 110-117). -/
def finallyOutcome (v : VideoSource) : Except DetectionFailed Unit :=
  match (match v.release with
         | some r => suppressExc r
         | none => Except.ok ()) with
  | Except.error e => Except.error e
  | Except.ok () =>
    match v.close with
    | some c => suppressExc c
    | none => Except.ok ()

/-- Python `try/finally` semantics for a value-producing body: the
finally block always runs; if it raises, its exception replaces the
body's outcome, otherwise the body's outcome stands. -/
def tryFinallyResult (body : Except DetectionFailed α)
    (fin : Except DetectionFailed Unit) : Except DetectionFailed α :=
  match fin with
  | Except.error e => Except.error e
  | Except.ok () => body

/-- `detect_cuts` from the point the video is opened
(src/cut_detector.py lines 62-148): run `manager.detect_scenes` inside
`try/finally` (progress callbacks fire during the run, release/close are
attempted afterwards on every path), then on success assemble the result
from the scene list.  Returns the outcome surfaced to the caller and the
ordered log of observable actions. -/
def detect_cuts (v : VideoSource) (run : DetectRun) (minLen : ℤ)
    (sink : ℚ → Except DetectionFailed Unit) :
    Except DetectionFailed AnalysisResult × List Event :=
  let body : Except DetectionFailed AnalysisResult :=
    match run.outcome with
    | Except.error e => Except.error e
    | Except.ok scenes => Except.ok (assembleResult v.total_frames v.fps scenes minLen)
  (tryFinallyResult body (finallyOutcome v),
    progressEvents v.total_frames sink run.callbackArgs ++ finallyEvents v)

/-- Decimal digit characters of a natural number, most significant
first (the rendering of a non-negative Python int). -/
def natChars (n : ℕ) : List Char :=
  if n = 0 then ['0'] else ((Nat.digits 10 n).reverse.map Nat.digitChar)

/-- Python `f"{n:02d}"` for a non-negative int: decimal digits,
zero-padded on the left to width at least 2. -/
def pad2 (n : ℕ) : List Char :=
  if n < 10 then '0' :: natChars n else natChars n

/-- Python `f"{s:05.2f}"` for a non-negative float, with the binary
round-to-nearest of CPython's float formatting modelled as rounding the
rational to the nearest hundredth: integer part zero-padded so the whole
field has width at least 5, a dot, then exactly two fractional digits. -/
def floatChars52 (s : ℚ) : List Char :=
  let h : ℕ := (⌊s * 100 + 1 / 2⌋).toNat
  pad2 (h / 100) ++ '.' :: pad2 (h % 100)

/-- `format_seconds` (src/cut_detector.py lines 20-25): `"-"` for
`None` or a negative value, otherwise
`f"{minutes:02d}:{seconds:05.2f}"` with `minutes = int(value // 60)` and
`seconds = value - minutes * 60`. -/
def format_seconds (value : Option ℚ) : String :=
  match value with
  | none => "-"
  | some v =>
    if v < 0 then "-"
    else
      let minutes : ℕ := (⌊v / 60⌋).toNat
      let seconds : ℚ := v - (minutes : ℚ) * 60
      String.mk (pad2 minutes ++ ':' :: floatChars52 seconds)

/-! ### Helper lemmas -/

theorem mem_buildSegments {fps : ℚ} {minLen : ℤ} (scenes : List (ℕ × ℕ))
    (acc : List Segment) (t : Segment)
    (h : t ∈ buildSegments fps minLen scenes acc) :
    t ∈ acc ∨ ∃ s e idx, (s, e) ∈ scenes ∧ minLen ≤ (e : ℤ) - (s : ℤ) ∧
      t = segRecord fps idx s e := by
  induction scenes generalizing acc with
  | nil => exact Or.inl h
  | cons hd rest ih =>
    obtain ⟨s, e⟩ := hd
    by_cases hd' : (e : ℤ) - (s : ℤ) < minLen
    · rw [buildSegments, if_pos hd'] at h
      rcases ih _ h with h' | ⟨s', e', idx, hm, hlen, ht⟩
      · exact Or.inl h'
      · exact Or.inr ⟨s', e', idx, List.mem_cons_of_mem _ hm, hlen, ht⟩
    · rw [buildSegments, if_neg hd'] at h
      rcases ih _ h with h' | ⟨s', e', idx, hm, hlen, ht⟩
      · rcases List.mem_append.1 h' with h'' | h''
        · exact Or.inl h''
        · refine Or.inr ⟨s, e, acc.length + 1, List.mem_cons_self _ _, not_lt.1 hd', ?_⟩
          simpa using h''
      · exact Or.inr ⟨s', e', idx, List.mem_cons_of_mem _ hm, hlen, ht⟩

/-- The list carries indices `1, 2, ..., length` in order. -/
def Indexed (l : List Segment) : Prop :=
  ∀ i (h : i < l.length), (l.get ⟨i, h⟩).index = i + 1

theorem indexed_append (l : List Segment) (x : Segment) (hl : Indexed l)
    (hx : x.index = l.length + 1) : Indexed (l ++ [x]) := by
  intro i h
  rw [List.length_append, List.length_singleton] at h
  rcases Nat.lt_succ_iff_lt_or_eq.1 h with h' | h'
  · rw [List.get_append _ h']
    exact hl i h'
  · subst h'
    rw [List.get_append_right]
    · simpa using hx
    · simp
    · simp

theorem indexed_buildSegments {fps : ℚ} {minLen : ℤ} (scenes : List (ℕ × ℕ))
    (acc : List Segment) (hacc : Indexed acc) :
    Indexed (buildSegments fps minLen scenes acc) := by
  induction scenes generalizing acc with
  | nil => exact hacc
  | cons hd rest ih =>
    obtain ⟨s, e⟩ := hd
    by_cases hd' : (e : ℤ) - (s : ℤ) < minLen
    · rw [buildSegments, if_pos hd']
      exact ih _ hacc
    · rw [buildSegments, if_neg hd']
      exact ih _ (indexed_append acc _ hacc rfl)

theorem suppressExc_eq (action : Except DetectionFailed Unit) :
    suppressExc action = Except.ok () := rfl

theorem finallyOutcome_eq (v : VideoSource) :
    finallyOutcome v = Except.ok () := by
  unfold finallyOutcome
  cases v.release <;> cases v.close <;> rfl

theorem detect_cuts_fst (v : VideoSource) (run : DetectRun) (minLen : ℤ)
    (sink : ℚ → Except DetectionFailed Unit) :
    (detect_cuts v run minLen sink).1 =
      match run.outcome with
      | Except.error e => Except.error e
      | Except.ok scenes =>
        Except.ok (assembleResult v.total_frames v.fps scenes minLen) := by
  unfold detect_cuts
  rw [finallyOutcome_eq]
  rfl

theorem progressCall_snd_eq (t : ℕ) (sink sink' : ℚ → Except DetectionFailed Unit)
    (a : FrameTimeArg) : (progressCall t sink a).2 = (progressCall t sink' a).2 := by
  unfold progressCall
  cases progressFraction t a <;> rfl

/-! ### Claims -/

/-- C1: for every scene list and every `min_len_frames ≥ 1`, each segment
returned by `detect_cuts` has `duration_frames ≥ min_len_frames`, and each
retained segment is one of the input scenes unchanged (a short adjacent
pair is dropped, never merged into a neighbour). -/
theorem c1_min_length_filter (total : ℕ) (fps : ℚ) (minLen : ℤ)
    (hmin : 1 ≤ minLen) (scenes : List (ℕ × ℕ)) (seg : Segment)
    (hseg : seg ∈ (assembleResult total fps scenes minLen).segments) :
    minLen ≤ seg.duration_frames ∧ (seg.start_frame, seg.end_frame) ∈ scenes := by
  rcases mem_buildSegments scenes [] seg hseg with h | ⟨s, e, idx, hm, hlen, ht⟩
  · simp at h
  · subst ht
    exact ⟨hlen, hm⟩

theorem c1_min_length_filter_witness :
    (15 : ℤ) ≤ (segRecord 0 1 0 150).duration_frames ∧
      ((segRecord 0 1 0 150).start_frame, (segRecord 0 1 0 150).end_frame) ∈
        [(0, 150), (150, 155), (155, 300)] :=
  c1_min_length_filter 300 0 15 (by decide) [(0, 150), (150, 155), (155, 300)]
    (segRecord 0 1 0 150)
    (by
      rw [show (assembleResult 300 0 [(0, 150), (150, 155), (155, 300)] 15).segments =
          [segRecord 0 1 0 150, segRecord 0 2 155 300] from rfl]
      exact List.mem_cons_self _ _)

/-- C2: when the external detection run fails mid-stream, `detect_cuts`
surfaces that single typed error (with its message) to the caller and
returns no partial segment list. -/
theorem c2_detection_error_propagates (v : VideoSource) (args : List FrameTimeArg)
    (e : DetectionFailed) (minLen : ℤ)
    (sink : ℚ → Except DetectionFailed Unit) :
    (detect_cuts v ⟨args, Except.error e⟩ minLen sink).1 = Except.error e ∧
      ∀ res, (detect_cuts v ⟨args, Except.error e⟩ minLen sink).1 ≠ Except.ok res := by
  have h := detect_cuts_fst v ⟨args, Except.error e⟩ minLen sink
  exact ⟨h, fun res hres => by rw [h] at hres; exact Except.noConfusion hres⟩

/-- C3: any exception raised by the progress sink is caught inside
`_progress` (the handler always returns normally), and the entire outcome
of `detect_cuts` — result and observable action log — is identical to a
run with a sink that never raises. -/
theorem c3_sink_failure_swallowed (v : VideoSource) (run : DetectRun) (minLen : ℤ)
    (sink : ℚ → Except DetectionFailed Unit) :
    (∀ a, (progressCall v.total_frames sink a).1 = Except.ok ()) ∧
      detect_cuts v run minLen sink =
        detect_cuts v run minLen (fun _ => Except.ok ()) := by
  constructor
  · intro a
    unfold progressCall
    cases progressFraction v.total_frames a <;> rfl
  · have hev : ∀ args : List FrameTimeArg,
        progressEvents v.total_frames sink args =
          progressEvents v.total_frames (fun _ => Except.ok ()) args := by
      intro args
      induction args with
      | nil => rfl
      | cons a rest ih =>
        rw [progressEvents, progressEvents, ih,
          progressCall_snd_eq v.total_frames sink (fun _ => Except.ok ()) a]
    unfold detect_cuts
    rw [hev]

theorem progressFraction_bounds (t : ℕ) (a : FrameTimeArg) (f : ℚ)
    (h : progressFraction t a = some f) : 0 ≤ f ∧ f ≤ 999 / 1000 := by
  unfold progressFraction at h
  by_cases ht : t = 0
  · rw [if_pos ht] at h
    exact absurd h (by simp)
  · rw [if_neg ht] at h
    have htQ : (0 : ℚ) ≤ (t : ℚ) := Nat.cast_nonneg t
    cases a with
    | noArg => exact absurd h (by simp)
    | noneArg => exact absurd h (by simp)
    | unconvertible => exact absurd h (by simp)
    | withGetFrames n =>
      rw [Option.some.injEq] at h
      subst h
      refine ⟨le_min (div_nonneg ?_ htQ) (by norm_num), min_le_right _ _⟩
      exact_mod_cast le_max_right n 0
    | intLike n =>
      rw [Option.some.injEq] at h
      subst h
      refine ⟨le_min (div_nonneg ?_ htQ) (by norm_num), min_le_right _ _⟩
      exact_mod_cast le_max_right n 0

theorem max_cast_div (t : ℕ) (ht : 0 < t) (n : ℤ) :
    ((max n 0 : ℤ) : ℚ) / (t : ℚ) = max ((n : ℚ) / (t : ℚ)) 0 := by
  have htQ : (0 : ℚ) < (t : ℚ) := by exact_mod_cast ht
  rcases le_total n 0 with hn | hn
  · rw [max_eq_right hn]
    rw [max_eq_right
      (div_nonpos_iff.2 (Or.inr ⟨by exact_mod_cast hn, le_of_lt htQ⟩))]
    simp
  · rw [max_eq_left hn]
    rw [max_eq_left (div_nonneg (by exact_mod_cast hn) (le_of_lt htQ))]

/-- C4: for every frame index and positive total frame count, the
fraction `_progress` computes equals
`clamp(frame_index / total_frames, 0, 0.999)`, and every value handed to
the sink lies in `[0, 0.999]`. -/
theorem c4_progress_fraction_clamp (t : ℕ) (ht : 0 < t) (n : ℤ) :
    (progressFraction t (FrameTimeArg.withGetFrames n) =
        some (min (max ((n : ℚ) / (t : ℚ)) 0) (999 / 1000)) ∧
      progressFraction t (FrameTimeArg.intLike n) =
        some (min (max ((n : ℚ) / (t : ℚ)) 0) (999 / 1000))) ∧
    ∀ (sink : ℚ → Except DetectionFailed Unit) (a : FrameTimeArg) (f : ℚ),
      Event.sinkCalled f ∈ (progressCall t sink a).2 →
        0 ≤ f ∧ f ≤ 999 / 1000 := by
  have ht' : t ≠ 0 := Nat.pos_iff_ne_zero.1 ht
  constructor
  · constructor <;>
      · unfold progressFraction
        rw [if_neg ht']
        show some (min (((max n 0 : ℤ) : ℚ) / (t : ℚ)) (999 / 1000)) = _
        rw [max_cast_div t ht n]
  · intro sink a f hf
    unfold progressCall at hf
    cases hpf : progressFraction t a with
    | none => rw [hpf] at hf; exact absurd hf (by simp)
    | some f' =>
      rw [hpf] at hf
      have : f = f' := by simpa using hf
      subst this
      exact progressFraction_bounds t a f hpf

theorem c4_progress_fraction_clamp_witness :
    progressFraction 300 (FrameTimeArg.withGetFrames 299) =
      some (min (max ((299 : ℚ) / (300 : ℚ)) 0) (999 / 1000)) :=
  (c4_progress_fraction_clamp 300 (by decide) 299).1.1

/-- C5: when the source reports `total_frames = 0`, the progress sink is
never invoked (the guarded division is never executed) and the returned
`duration_seconds` is `0`. -/
theorem c5_zero_total_frames (v : VideoSource) (run : DetectRun) (minLen : ℤ)
    (sink : ℚ → Except DetectionFailed Unit) (h : v.total_frames = 0) :
    (∀ f, Event.sinkCalled f ∉ (detect_cuts v run minLen sink).2) ∧
      ∀ res, (detect_cuts v run minLen sink).1 = Except.ok res →
        res.duration_seconds = 0 := by
  constructor
  · intro f hf
    have hpe : ∀ args, progressEvents v.total_frames sink args = [] := by
      intro args
      induction args with
      | nil => rfl
      | cons a rest ih =>
        have hnone : progressFraction v.total_frames a = none := by
          unfold progressFraction
          rw [if_pos h]
        rw [progressEvents, ih]
        unfold progressCall
        rw [hnone]
        rfl
    unfold detect_cuts at hf
    rw [hpe, List.nil_append] at hf
    unfold finallyEvents at hf
    rcases List.mem_append.1 hf with h1 | h1
    · by_cases hr : v.release.isSome
      · rw [if_pos hr] at h1
        simp at h1
      · rw [if_neg hr] at h1
        simp at h1
    · by_cases hc : v.close.isSome
      · rw [if_pos hc] at h1
        simp at h1
      · rw [if_neg hc] at h1
        simp at h1
  · intro res hres
    rw [detect_cuts_fst] at hres
    cases hout : run.outcome with
    | error e =>
      rw [hout] at hres
      exact absurd hres (by simp)
    | ok scenes =>
      rw [hout] at hres
      have hr : res = assembleResult v.total_frames v.fps scenes minLen :=
        (Except.ok.inj hres).symm
      subst hr
      show (if v.fps = 0 then (0 : ℚ) else (v.total_frames : ℚ) / v.fps) = 0
      rw [h]
      by_cases hfps : v.fps = 0
      · rw [if_pos hfps]
      · rw [if_neg hfps, Nat.cast_zero, zero_div]

theorem c5_zero_total_frames_witness :
    (∀ f, Event.sinkCalled f ∉
        (detect_cuts ⟨0, 30, none, none⟩
          ⟨[FrameTimeArg.withGetFrames 5], Except.ok [(0, 30)]⟩ 1
          (fun _ => Except.ok ())).2) ∧
      ∀ res, (detect_cuts ⟨0, 30, none, none⟩
          ⟨[FrameTimeArg.withGetFrames 5], Except.ok [(0, 30)]⟩ 1
          (fun _ => Except.ok ())).1 = Except.ok res →
        res.duration_seconds = 0 :=
  c5_zero_total_frames _ _ _ _ rfl

/-- C6: with an unknown frame rate (`fps = 0`) every returned segment has
`start_time = 0`, `end_time = 0`, `duration_seconds = max(end_time -
start_time, 0) = 0`, and the overall `duration_seconds` is `0`; with
`fps > 0` the time fields are `start_frame / fps` and `end_frame / fps`. -/
theorem c6_time_fields (total : ℕ) (fps : ℚ) (scenes : List (ℕ × ℕ))
    (minLen : ℤ) (seg : Segment)
    (hseg : seg ∈ (assembleResult total fps scenes minLen).segments) :
    (fps = 0 → seg.start_time = 0 ∧ seg.end_time = 0 ∧
      seg.duration_seconds = max (seg.end_time - seg.start_time) 0 ∧
      seg.duration_seconds = 0 ∧
      (assembleResult total fps scenes minLen).duration_seconds = 0) ∧
    (0 < fps → seg.start_time = (seg.start_frame : ℚ) / fps ∧
      seg.end_time = (seg.end_frame : ℚ) / fps) := by
  rcases mem_buildSegments scenes [] seg hseg with h | ⟨s, e, idx, hm, hlen, ht⟩
  · simp at h
  · subst ht
    constructor
    · intro hfps
      refine ⟨?_, ?_, ?_, ?_, ?_⟩ <;> simp [segRecord, assembleResult, hfps]
    · intro hfps
      have hne : fps ≠ 0 := ne_of_gt hfps
      constructor <;> simp [segRecord, hne]

theorem c6_time_fields_witness :
    ((0 : ℚ) = 0 → (segRecord 0 1 0 150).start_time = 0 ∧
      (segRecord 0 1 0 150).end_time = 0 ∧
      (segRecord 0 1 0 150).duration_seconds =
        max ((segRecord 0 1 0 150).end_time - (segRecord 0 1 0 150).start_time) 0 ∧
      (segRecord 0 1 0 150).duration_seconds = 0 ∧
      (assembleResult 300 0 [(0, 150)] 15).duration_seconds = 0) ∧
    ((0 : ℚ) < 0 → (segRecord 0 1 0 150).start_time =
        ((segRecord 0 1 0 150).start_frame : ℚ) / 0 ∧
      (segRecord 0 1 0 150).end_time =
        ((segRecord 0 1 0 150).end_frame : ℚ) / 0) :=
  c6_time_fields 300 0 [(0, 150)] 15 (segRecord 0 1 0 150)
    (by
      rw [show (assembleResult 300 0 [(0, 150)] 15).segments =
          [segRecord 0 1 0 150] from rfl]
      exact List.mem_singleton_self _)

/-- C7: on both exit paths of the detection run the `finally` block
attempts `release()` and `close()` when they exist, and the outcome
surfaced to the caller is exactly the detection body's outcome — an
exception raised by `release`/`close` is suppressed and never
propagates. -/
theorem c7_release_always_attempted (v : VideoSource) (run : DetectRun)
    (minLen : ℤ) (sink : ℚ → Except DetectionFailed Unit)
    (hr : v.release.isSome) (hc : v.close.isSome) :
    Event.releaseCalled ∈ (detect_cuts v run minLen sink).2 ∧
      Event.closeCalled ∈ (detect_cuts v run minLen sink).2 ∧
      (detect_cuts v run minLen sink).1 =
        (match run.outcome with
          | Except.error e => Except.error e
          | Except.ok scenes =>
            Except.ok (assembleResult v.total_frames v.fps scenes minLen)) := by
  refine ⟨?_, ?_, detect_cuts_fst v run minLen sink⟩
  · show Event.releaseCalled ∈
      progressEvents v.total_frames sink run.callbackArgs ++ finallyEvents v
    refine List.mem_append.2 (Or.inr ?_)
    unfold finallyEvents
    refine List.mem_append.2 (Or.inl ?_)
    rw [if_pos hr]
    exact List.mem_singleton_self _
  · show Event.closeCalled ∈
      progressEvents v.total_frames sink run.callbackArgs ++ finallyEvents v
    refine List.mem_append.2 (Or.inr ?_)
    unfold finallyEvents
    refine List.mem_append.2 (Or.inr ?_)
    rw [if_pos hc]
    exact List.mem_singleton_self _

theorem c7_release_always_attempted_witness :
    Event.releaseCalled ∈
      (detect_cuts
        ⟨100, 30, some (Except.error ⟨"release failed"⟩), some (Except.ok ())⟩
        ⟨[], Except.error ⟨"decode error"⟩⟩ 1 (fun _ => Except.ok ())).2 :=
  (c7_release_always_attempted
    ⟨100, 30, some (Except.error ⟨"release failed"⟩), some (Except.ok ())⟩
    ⟨[], Except.error ⟨"decode error"⟩⟩ 1 (fun _ => Except.ok ()) rfl rfl).1

/-- C8: after the minimum-length filter, the surviving segments carry
index values exactly `1, 2, ..., K` in output order, with no gaps left
by dropped scenes. -/
theorem c8_reindexed (total : ℕ) (fps : ℚ) (scenes : List (ℕ × ℕ))
    (minLen : ℤ) (i : ℕ)
    (h : i < (assembleResult total fps scenes minLen).segments.length) :
    ((assembleResult total fps scenes minLen).segments.get ⟨i, h⟩).index = i + 1 :=
  indexed_buildSegments scenes [] (fun j hj => absurd hj (Nat.not_lt_zero j)) i h

theorem c8_reindexed_witness :
    ((assembleResult 300 0 [(0, 150), (150, 155), (155, 300)] 15).segments.get
      ⟨1, by decide⟩).index = 2 :=
  c8_reindexed 300 0 [(0, 150), (150, 155), (155, 300)] 15 1 (by decide)

/-- C9: `_progress` returns without invoking the sink and without raising
when no frame-time argument is present, when it is `None`, or when it is
unconvertible; a negative frame index is clamped to `0` before the
fraction is computed, yielding fraction `0`. -/
theorem c9_progress_argument_guards (t : ℕ)
    (sink : ℚ → Except DetectionFailed Unit) (n : ℤ) (hn : n ≤ 0)
    (ht : t ≠ 0) :
    progressCall t sink FrameTimeArg.noArg = (Except.ok (), []) ∧
      progressCall t sink FrameTimeArg.noneArg = (Except.ok (), []) ∧
      progressCall t sink FrameTimeArg.unconvertible = (Except.ok (), []) ∧
      progressFraction t (FrameTimeArg.withGetFrames n) = some 0 ∧
      progressFraction t (FrameTimeArg.intLike n) = some 0 := by
  have hguard : ∀ a, progressFraction t a = none →
      progressCall t sink a = (Except.ok (), []) := by
    intro a ha
    unfold progressCall
    rw [ha]
  have hmax : max n 0 = 0 := max_eq_right hn
  have hclamp : ∀ a, (progressFraction t a =
        if t = 0 then none
        else some (min (((max n 0 : ℤ) : ℚ) / (t : ℚ)) (999 / 1000))) →
      progressFraction t a = some 0 := by
    intro a ha
    rw [ha, if_neg ht, hmax]
    norm_num
  refine ⟨hguard _ ?_, hguard _ ?_, hguard _ ?_, hclamp _ ?_, hclamp _ ?_⟩ <;>
    · unfold progressFraction
      by_cases h0 : t = 0
      · rw [if_pos h0]
      · rw [if_neg h0]

theorem c9_progress_argument_guards_witness :
    progressFraction 10 (FrameTimeArg.withGetFrames (-3)) = some 0 :=
  (c9_progress_argument_guards 10 (fun _ => Except.ok ()) (-3) (by decide)
    (by decide)).2.2.2.1

theorem format_seconds_some (y : ℚ) :
    format_seconds (some y) =
      if y < 0 then "-"
      else String.mk (pad2 (⌊y / 60⌋).toNat ++ ':' ::
        floatChars52 (y - ((⌊y / 60⌋).toNat : ℚ) * 60)) := rfl

theorem natChars_length_pos (n : ℕ) : 1 ≤ (natChars n).length := by
  unfold natChars
  by_cases h : n = 0
  · rw [if_pos h]
    simp
  · rw [if_neg h]
    rw [List.length_map, List.length_reverse]
    exact List.length_pos.2 (Nat.digits_ne_nil_iff_ne_zero.2 h)

theorem natChars_length (n : ℕ) (h : n ≠ 0) :
    (natChars n).length = Nat.log 10 n + 1 := by
  unfold natChars
  rw [if_neg h, List.length_map, List.length_reverse, Nat.digits_len 10 n (by norm_num) h]

theorem pad2_length (n : ℕ) : 2 ≤ (pad2 n).length := by
  unfold pad2
  by_cases h : n < 10
  · rw [if_pos h, List.length_cons]
    exact Nat.succ_le_succ (natChars_length_pos n)
  · rw [if_neg h, natChars_length n (by omega)]
    have : 0 < Nat.log 10 n := Nat.log_pos (by norm_num) (by omega)
    omega

theorem pad2_length_eq_two (n : ℕ) (h : n < 100) : (pad2 n).length = 2 := by
  unfold pad2
  by_cases h1 : n < 10
  · rw [if_pos h1, List.length_cons]
    by_cases h0 : n = 0
    · subst h0
      rfl
    · rw [natChars_length n h0]
      have : Nat.log 10 n = 0 := Nat.log_eq_zero_iff.2 (Or.inl h1)
      omega
  · rw [if_neg h1, natChars_length n (by omega)]
    have : Nat.log 10 n = 1 :=
      Nat.log_eq_of_pow_le_of_lt_pow (by omega) (by omega)
    omega

/-- C10: `format_seconds` returns `"-"` exactly for `None` or a negative
value; for a value `≥ 0` it returns `minutes:seconds` where `minutes` is
`⌊value / 60⌋` rendered with at least two digits and `seconds` is
`value - minutes * 60` rendered zero-padded with exactly two decimal
digits. -/
theorem c10_format_seconds (v : Option ℚ) (x : ℚ) (hx : 0 ≤ x) :
    (format_seconds v = "-" ↔ v = none ∨ ∃ y, v = some y ∧ y < 0) ∧
      (((⌊x / 60⌋).toNat : ℤ) = ⌊x / 60⌋ ∧
        format_seconds (some x) =
          String.mk (pad2 (⌊x / 60⌋).toNat ++ ':' ::
            floatChars52 (x - ((⌊x / 60⌋).toNat : ℚ) * 60)) ∧
        2 ≤ (pad2 (⌊x / 60⌋).toNat).length ∧
        ∃ intPart fracPart,
          floatChars52 (x - ((⌊x / 60⌋).toNat : ℚ) * 60) =
            intPart ++ '.' :: fracPart ∧
          fracPart.length = 2 ∧ 2 ≤ intPart.length) := by
  refine ⟨⟨?_, ?_⟩, ?_, ?_, pad2_length _, ?_⟩
  · intro heq
    cases v with
    | none => exact Or.inl rfl
    | some y =>
      by_cases hy : y < 0
      · exact Or.inr ⟨y, rfl, hy⟩
      · exfalso
        rw [format_seconds_some, if_neg hy] at heq
        have hlen : (pad2 ((⌊y / 60⌋).toNat) ++ ':' ::
            floatChars52 (y - (((⌊y / 60⌋).toNat) : ℚ) * 60)).length = 1 := by
          simpa using congrArg String.length heq
        rw [List.length_append, List.length_cons] at hlen
        have h2 := pad2_length ((⌊y / 60⌋).toNat)
        omega
  · intro h
    rcases h with h | ⟨y, hy, hneg⟩
    · subst h
      rfl
    · subst hy
      rw [format_seconds_some, if_pos hneg]
  · exact Int.toNat_of_nonneg (Int.floor_nonneg.2 (div_nonneg hx (by norm_num)))
  · rw [format_seconds_some, if_neg (not_lt.2 hx)]
  · refine ⟨pad2 (((⌊(x - ((⌊x / 60⌋).toNat : ℚ) * 60) * 100 + 1 / 2⌋).toNat) / 100),
      pad2 (((⌊(x - ((⌊x / 60⌋).toNat : ℚ) * 60) * 100 + 1 / 2⌋).toNat) % 100),
      rfl, pad2_length_eq_two _ (Nat.mod_lt _ (by norm_num)), pad2_length _⟩

theorem c10_format_seconds_witness :
    format_seconds (some ((251 : ℚ) / 2)) = "-" ↔
      (some ((251 : ℚ) / 2) : Option ℚ) = none ∨
        ∃ y, (some ((251 : ℚ) / 2) : Option ℚ) = some y ∧ y < 0 :=
  (c10_format_seconds (some ((251 : ℚ) / 2)) ((251 : ℚ) / 2) (by norm_num)).1

end CutDetector
